import Mathlib

/-!
Shallow embedding of the StockChain ledger (src/src/server/blockchain.py and
the `verify` handler of src/src/server/server.py).

Python dict-based blocks and transactions are modelled as Lean structures;
keys that may be absent become `Option` fields.  SHA-256 (an external library
primitive, `hashlib.sha256(...).hexdigest()`) is modelled as an opaque
parameter `H : String → String`; every definition that hashes takes `H`
explicitly.  Wall-clock timestamps become an explicit `ts : String` argument.
The file-per-block store becomes an association list from block index to
block; Python exceptions become `Option`/`Except` results.
-/

namespace StockChain

/-- A transaction dict: `user_id`, `operation_type`, `stock_name`.
`Option` marks keys that may be missing from the dict. -/
structure Transaction where
  user_id : Option String
  operation_type : Option String
  stock_name : Option String
deriving DecidableEq, Repr

/-- A block's `data` field: either a plain string (the genesis marker) or a
list of transaction dicts. -/
inductive BlockData where
  | str (s : String)
  | txs (l : List Transaction)
deriving DecidableEq, Repr

/-- A block dict with its six fields. -/
structure Block where
  index : Nat
  timestamp : String
  data : BlockData
  previous_hash : String
  proof : Nat
  hash : String
deriving DecidableEq, Repr

/-- In-memory engine state plus the block store (directory contents):
`chain`, `current_transactions`, and the store as an index → block list. -/
structure Blockchain where
  chain : List Block
  current_transactions : List Transaction
  store : List (Nat × Block)
deriving DecidableEq, Repr

/-- JSON string literal (no escaping needed for the values in play). -/
def jsonQ (s : String) : String := "\"" ++ s ++ "\""

/-- `json.dumps` of one transaction dict with `sort_keys=True`:
keys in order operation_type, stock_name, user_id; absent keys omitted. -/
def serializeTx (t : Transaction) : String :=
  let fields :=
    (match t.operation_type with
     | some v => [jsonQ "operation_type" ++ ": " ++ jsonQ v]
     | none => []) ++
    (match t.stock_name with
     | some v => [jsonQ "stock_name" ++ ": " ++ jsonQ v]
     | none => []) ++
    (match t.user_id with
     | some v => [jsonQ "user_id" ++ ": " ++ jsonQ v]
     | none => [])
  "\x7b" ++ String.intercalate ", " fields ++ "\x7d"

/-- `json.dumps` of a block's `data` value. -/
def serializeData : BlockData → String
  | .str s => jsonQ s
  | .txs l => "[" ++ String.intercalate ", " (l.map serializeTx) ++ "]"

/-- `json.dumps(block_copy, sort_keys=True)` where `block_copy` is the block
with its `hash` key popped: keys in sorted order
data, index, previous_hash, proof, timestamp. -/
def serializeBlockNoHash (b : Block) : String :=
  "\x7b" ++ String.intercalate ", "
    [jsonQ "data" ++ ": " ++ serializeData b.data,
     jsonQ "index" ++ ": " ++ Nat.repr b.index,
     jsonQ "previous_hash" ++ ": " ++ jsonQ b.previous_hash,
     jsonQ "proof" ++ ": " ++ Nat.repr b.proof,
     jsonQ "timestamp" ++ ": " ++ jsonQ b.timestamp] ++ "\x7d"

/-- `Blockchain.hash(block)`: pop the `hash` key, dump with sorted keys,
SHA-256 hex digest (the digest itself is the parameter `H`). -/
def hashBlock (H : String → String) (b : Block) : String :=
  H (serializeBlockNoHash b)

/-- The store filename of a block: `block_{index}.json`. -/
def block_filename (i : Nat) : String :=
  "block_" ++ Nat.repr i ++ ".json"

/-- Code-point lexicographic strict order on char lists, the order Python
`sorted` uses on the filename strings. -/
def charListLt : List Char → List Char → Bool
  | [], [] => false
  | [], _ :: _ => true
  | _ :: _, [] => false
  | a :: as, b :: bs =>
    if a.toNat < b.toNat then true
    else if b.toNat < a.toNat then false
    else charListLt as bs

/-- Boolean string comparison by code points. -/
def strLt (a b : String) : Bool := charListLt a.data b.data

/-- Insert one store entry into a list sorted by filename. -/
def insertByName (p : Nat × Block) : List (Nat × Block) → List (Nat × Block)
  | [] => [p]
  | q :: rest =>
    if strLt (block_filename q.1) (block_filename p.1) then
      q :: insertByName p rest
    else
      p :: q :: rest

/-- Sort the store entries by filename, as `sorted(os.listdir(dir))` does. -/
def sortByName : List (Nat × Block) → List (Nat × Block)
  | [] => []
  | p :: rest => insertByName p (sortByName rest)

/-- `save_block_to_json`: write (or overwrite) the file `block_{index}.json`
holding this block. -/
def save_block_to_json (store : List (Nat × Block)) (b : Block) :
    List (Nat × Block) :=
  (store.filter fun p => p.1 != b.index) ++ [(b.index, b)]

/-- `load_chain_from_json`: read the store files in sorted-filename order and
append each parsed block to the chain. -/
def load_chain_from_json (store : List (Nat × Block)) : List Block :=
  (sortByName store).map Prod.snd

/-- `is_valid_transaction`: key `operation_type` present with value in
buy/sell, key `stock_name` present with truthy (non-empty) value. -/
def is_valid_transaction (t : Transaction) : Bool :=
  match t.operation_type with
  | none => false
  | some op =>
    if !(op == "buy" || op == "sell") then false
    else
      match t.stock_name with
      | none => false
      | some s => !(s == "")

/-- The inner loop `for transaction in current_block['data']` of
`is_valid_chain`.  Iterating a Python string yields its characters, and a
single character never contains the key `operation_type`, so string data
passes only when the string is empty. -/
def dataTxnsValid : BlockData → Bool
  | .str s => s == ""
  | .txs l => l.all is_valid_transaction

/-- `is_valid_chain`: every adjacent pair must satisfy
`chain[i].previous_hash == chain[i-1].hash` (stored hash) and every
transaction in `chain[i].data` (i ≥ 1) must validate. -/
def is_valid_chain : List Block → Bool
  | [] => true
  | [_] => true
  | a :: b :: rest =>
    b.previous_hash == a.hash && dataTxnsValid b.data &&
      is_valid_chain (b :: rest)

/-- `add_transaction`: append to the pool, then return
`last_block['index'] + 1`; `none` models the `TypeError` raised when the
chain is empty and `last_block` is `None` (the append has already happened). -/
def add_transaction (bc : Blockchain) (t : Transaction) :
    Blockchain × Option Nat :=
  let bc' := { bc with current_transactions := bc.current_transactions ++ [t] }
  match bc'.chain.getLast? with
  | none => (bc', none)
  | some lb => (bc', some (lb.index + 1))

/-- Python `previous_hash or calculated_previous_hash`: a missing or falsy
(empty-string) argument yields the computed default. -/
def pyOr (o : Option String) (d : String) : String :=
  match o with
  | none => d
  | some s => if s == "" then d else s

/-- `self.hash(last_block) if last_block else '0'`. -/
def calculated_previous_hash (H : String → String) (chain : List Block) :
    String :=
  match chain.getLast? with
  | some lb => hashBlock H lb
  | none => "0"

/-- The block dict that `create_block` builds (before saving): index is the
current chain length, data the current pool, `previous_hash` the Python
`previous_hash or calculated_previous_hash`, and then the `hash` key is set. -/
def mkNewBlock (H : String → String) (bc : Blockchain) (proof : Nat)
    (previous_hash : Option String) (ts : String) : Block :=
  let ph := pyOr previous_hash (calculated_previous_hash H bc.chain)
  let b0 : Block :=
    { index := bc.chain.length, timestamp := ts,
      data := BlockData.txs bc.current_transactions,
      previous_hash := ph, proof := proof, hash := "" }
  { b0 with hash := hashBlock H b0 }

/-- `create_block(proof, previous_hash=None)`: raise on an invalid chain,
else build the block from the pool, hash it, save it, clear the pool and
append.  The current timestamp is the explicit argument `ts`. -/
def create_block (H : String → String) (bc : Blockchain) (proof : Nat)
    (previous_hash : Option String) (ts : String) :
    Blockchain × Except String Block :=
  if !is_valid_chain bc.chain then
    (bc, Except.error "Cannot create a block on an invalid blockchain.")
  else
    ({ chain := bc.chain ++ [mkNewBlock H bc proof previous_hash ts],
       current_transactions := [],
       store := save_block_to_json bc.store (mkNewBlock H bc proof previous_hash ts) },
     Except.ok (mkNewBlock H bc proof previous_hash ts))

/-- The genesis block dict built by `create_genesis_block`. -/
def genesisBlock (H : String → String) (ts : String) : Block :=
  let g0 : Block :=
    { index := 0, timestamp := ts, data := BlockData.str "Genesis Block",
      previous_hash := "0", proof := 100, hash := "" }
  { g0 with hash := hashBlock H g0 }

/-- `create_genesis_block`: append the genesis block and save it. -/
def create_genesis_block (H : String → String) (ts : String)
    (bc : Blockchain) : Blockchain :=
  let g := genesisBlock H ts
  { bc with chain := bc.chain ++ [g], store := save_block_to_json bc.store g }

/-- `__init__`: empty chain and pool, load the store, and create the genesis
block when the loaded chain is empty. -/
def initBlockchain (H : String → String) (ts : String)
    (store : List (Nat × Block)) : Blockchain :=
  let bc : Blockchain :=
    { chain := load_chain_from_json store, current_transactions := [],
      store := store }
  if bc.chain.length == 0 then create_genesis_block H ts bc else bc

/-- `valid_proof(last_proof, proof)`: SHA-256 hex digest of the concatenated
decimal strings starts with `0000`. -/
def valid_proof (H : String → String) (last_proof proof : Nat) : Bool :=
  (H (Nat.repr last_proof ++ Nat.repr proof)).take 4 == "0000"

/-- The `while not valid_proof: proof += 1` search, with explicit fuel since
the Python loop may diverge; `none` models non-termination within `fuel`. -/
def proof_of_work_from (H : String → String) (last_proof : Nat) :
    Nat → Nat → Option Nat
  | 0, _ => none
  | fuel + 1, p =>
    if valid_proof H last_proof p then some p
    else proof_of_work_from H last_proof fuel (p + 1)

/-- `proof_of_work(last_proof)`: linear search from 0. -/
def proof_of_work (H : String → String) (last_proof fuel : Nat) :
    Option Nat :=
  proof_of_work_from H last_proof fuel 0

/-- One iteration of the `verify_integrity` loop body on block `b` with the
walked predecessor `prev`: on a link mismatch overwrite `previous_hash` with
the recomputed hash and recompute `hash`. -/
def repairStep (H : String → String) (prev b : Block) : Block :=
  let rh := hashBlock H prev
  if b.previous_hash == rh then b
  else
    let b1 := { b with previous_hash := rh }
    { b1 with hash := hashBlock H b1 }

/-- The `verify_integrity` walk over the tail of the chain, threading the
store: each repaired block is saved back to its file. -/
def repairWalk (H : String → String) (prev : Block)
    (store : List (Nat × Block)) :
    List Block → List Block × List (Nat × Block)
  | [] => ([], store)
  | b :: rest =>
    let b' := repairStep H prev b
    let store' :=
      if b.previous_hash == hashBlock H prev then store
      else save_block_to_json store b'
    let r := repairWalk H b' store' rest
    (b' :: r.1, r.2)

/-- `verify_integrity`: walk from index 1 forward, repair mismatched links in
place, and return `True`; `none` models the `IndexError` of `self.chain[0]`
on an empty chain. -/
def verify_integrity (H : String → String) (bc : Blockchain) :
    Option (Bool × Blockchain) :=
  match bc.chain with
  | [] => none
  | c0 :: rest =>
    let r := repairWalk H c0 bc.store rest
    some (true, { bc with chain := c0 :: r.1, store := r.2 })

/-- `Server.handle_verify_integrity`: call `verify_integrity`; only when it
returns `True` is the `response` variable bound and sent.  `none` models the
`NameError` of the unbound `response` (or the propagated `IndexError`). -/
def handle_verify_integrity (H : String → String) (bc : Blockchain) :
    Option (String × Blockchain) :=
  match verify_integrity H bc with
  | none => none
  | some (is_valid, bc') =>
    if is_valid then
      some ("The blockchain is valid and has not been altered.", bc')
    else none

/-- The chain component of the `verify_integrity` walk, without the store
threading: the repaired tail of the chain after block `prev`. -/
def repairTail (H : String → String) (prev : Block) : List Block → List Block
  | [] => []
  | b :: rest =>
    repairStep H prev b :: repairTail H (repairStep H prev b) rest

/-! Concrete fixtures used by counterexamples and witnesses. -/

/-- A stand-in digest function for concrete runs. -/
def H0 : String → String := fun _ => "h"

/-- A stand-in digest function whose digests all start with `0000`. -/
def H4 : String → String := fun _ => "0000h"

/-- A concrete genesis-shaped block (its `hash` field is `H0` of it). -/
def gB : Block :=
  { index := 0, timestamp := "t0", data := BlockData.str "Genesis Block",
    previous_hash := "0", proof := 100, hash := "h" }

/-- A fresh engine state holding only `gB`, as after startup on an empty
store under `H0`. -/
def bcG : Blockchain :=
  { chain := [gB], current_transactions := [], store := [(0, gB)] }

/-- A transaction violating the invariant: operation type `hold`. -/
def txBad : Transaction :=
  { user_id := some "1", operation_type := some "hold",
    stock_name := some "AAPL" }

/-- A transaction satisfying the invariant. -/
def txGood : Transaction :=
  { user_id := some "1", operation_type := some "buy",
    stock_name := some "AAPL" }

/-- The block `create_block H0 bcG 7 (some "bogus") "t1"` builds. -/
def bC2 : Block :=
  { index := 1, timestamp := "t1", data := BlockData.txs [],
    previous_hash := "bogus", proof := 7, hash := "h" }

/-- The engine state after that call. -/
def bcC2 : Blockchain :=
  { chain := [gB, bC2], current_transactions := [],
    store := [(0, gB), (1, bC2)] }

/-- The block `create_block H0 bcG 7 none "t1"` builds (default link). -/
def bW2 : Block :=
  { index := 1, timestamp := "t1", data := BlockData.txs [],
    previous_hash := "h", proof := 7, hash := "h" }

/-- The engine state after that call. -/
def bcW2 : Blockchain :=
  { chain := [gB, bW2], current_transactions := [],
    store := [(0, gB), (1, bW2)] }

/-- A block whose stored link to `gB` is wrong. -/
def bBad : Block :=
  { index := 1, timestamp := "t", data := BlockData.txs [],
    previous_hash := "nope", proof := 0, hash := "x" }

/-- An engine state with a broken link, so `is_valid_chain` is false. -/
def bcBad : Blockchain :=
  { chain := [gB, bBad], current_transactions := [], store := [] }

/-- `bBad` after `verify_integrity` under `H0` repairs it. -/
def bRep : Block :=
  { index := 1, timestamp := "t", data := BlockData.txs [],
    previous_hash := "h", proof := 0, hash := "h" }

/-- The engine state `verify_integrity H0 bcBad` produces. -/
def bcRep : Blockchain :=
  { chain := [gB, bRep], current_transactions := [], store := [(1, bRep)] }

/-- A genesis-position block whose data is a list holding an invalid
transaction. -/
def blkC7 : Block :=
  { index := 0, timestamp := "t0", data := BlockData.txs [txBad],
    previous_hash := "0", proof := 100, hash := "h" }

/-- The i-th block of an 11-block chain fixture for the store round-trip. -/
def mkB (i : Nat) : Block :=
  { index := i, timestamp := "t", data := BlockData.txs [],
    previous_hash := "p", proof := i, hash := "x" }

/-- The store contents after saving blocks with indices 0..10 in order. -/
def store11 : List (Nat × Block) :=
  ((List.range 11).map mkB).foldl save_block_to_json []

/-! ## Helper lemmas -/

/-- Characterization of a successful `create_block` call: the chain was
valid, the returned block is `mkNewBlock`, and the new state appends it,
clears the pool and saves it. -/
theorem create_block_ok (H : String → String) (bc : Blockchain) (proof : Nat)
    (ph : Option String) (ts : String) (bc' : Blockchain) (b : Block)
    (h : create_block H bc proof ph ts = (bc', Except.ok b)) :
    is_valid_chain bc.chain = true ∧ b = mkNewBlock H bc proof ph ts ∧
    bc' = { chain := bc.chain ++ [b], current_transactions := [],
            store := save_block_to_json bc.store b } := by
  by_cases hv : is_valid_chain bc.chain
  · simp only [create_block, hv, Bool.not_true, Bool.false_eq_true,
      if_false, Prod.mk.injEq] at h
    obtain ⟨h1, h2⟩ := h
    obtain rfl : b = mkNewBlock H bc proof ph ts := (Except.ok.inj h2).symm
    exact ⟨hv, rfl, h1.symm⟩
  · rw [Bool.not_eq_true] at hv
    simp [create_block, hv] at h

/-! ## Claim theorems -/

/-- Claim C8: starting from an empty block store, engine construction yields
a chain of exactly one block, the genesis block, with index 0, data
`Genesis Block`, previous_hash `0`, proof 100, and hash equal to the digest
of the block minus its hash field. -/
theorem init_empty_store_genesis (H : String → String) (ts : String) :
    initBlockchain H ts []
      = { chain := [genesisBlock H ts], current_transactions := [],
          store := [(0, genesisBlock H ts)] }
    ∧ (genesisBlock H ts).index = 0
    ∧ (genesisBlock H ts).data = BlockData.str "Genesis Block"
    ∧ (genesisBlock H ts).previous_hash = "0"
    ∧ (genesisBlock H ts).proof = 100
    ∧ (genesisBlock H ts).hash = hashBlock H (genesisBlock H ts) :=
  ⟨rfl, rfl, rfl, rfl, rfl, rfl⟩

/-- Claim C4: when `is_valid_chain` is false, `create_block` fails with the
invalid-chain error and the state — chain, pool and store alike — is
returned exactly as it was. -/
theorem create_block_invalid_chain_noop (H : String → String)
    (bc : Blockchain) (proof : Nat) (ph : Option String) (ts : String)
    (h : is_valid_chain bc.chain = false) :
    create_block H bc proof ph ts
      = (bc, Except.error "Cannot create a block on an invalid blockchain.") := by
  simp [create_block, h]

/-- Witness for C4 at a concrete broken chain. -/
theorem create_block_invalid_chain_noop_witness :
    is_valid_chain bcBad.chain = false
    ∧ create_block H0 bcBad 3 none "t2"
        = (bcBad, Except.error "Cannot create a block on an invalid blockchain.") :=
  ⟨by decide, create_block_invalid_chain_noop H0 bcBad 3 none "t2" (by decide)⟩

/-- Claim C3 (code bug): saving the 11 blocks of indices 0..10 and then
loading the store does not reconstruct the saved sequence: the store sorts
by filename string, so the loaded order is 0, 1, 10, 2, ..., 9 rather than
index ascending. -/
theorem load_chain_order_bug :
    (load_chain_from_json store11).map Block.index
        = [0, 1, 10, 2, 3, 4, 5, 6, 7, 8, 9]
    ∧ ((List.range 11).map mkB).map Block.index
        = [0, 1, 2, 3, 4, 5, 6, 7, 8, 9, 10]
    ∧ load_chain_from_json store11 ≠ (List.range 11).map mkB := by
  refine ⟨by decide, by decide, by decide⟩

/-- Counterexample to claim C1: `add_transaction` performs no validation.
`txBad` fails the transaction invariant, yet the call appends it to the
pending pool and returns the next block index. -/
theorem add_transaction_accepts_invalid_cex :
    is_valid_transaction txBad = false
    ∧ add_transaction bcG txBad
        = ({ bcG with current_transactions := [txBad] }, some 1)
    ∧ (add_transaction bcG txBad).1.current_transactions
        ≠ bcG.current_transactions := by
  refine ⟨by decide, by decide, by decide⟩

/-- Claim C1 (amended): `add_transaction` unconditionally appends the
transaction to the pool and returns `last_block.index + 1`; the validation
predicate `is_valid_transaction` (applied by the dispatcher before
admission) accepts exactly the transactions with operation type buy or sell
and a present, non-empty stock name. -/
theorem add_transaction_spec (bc : Blockchain) (t : Transaction) (lb : Block)
    (h : bc.chain.getLast? = some lb) :
    add_transaction bc t
      = ({ bc with current_transactions := bc.current_transactions ++ [t] },
          some (lb.index + 1))
    ∧ (is_valid_transaction t = true ↔
        ((t.operation_type = some "buy" ∨ t.operation_type = some "sell")
          ∧ ∃ s, t.stock_name = some s ∧ s ≠ "")) := by
  constructor
  · simp [add_transaction, h]
  · rcases t with ⟨u, op, st⟩
    cases op with
    | none => simp [is_valid_transaction]
    | some o =>
      cases st with
      | none => simp [is_valid_transaction]
      | some s =>
        simp only [is_valid_transaction, Option.some.injEq, exists_eq_left']
        by_cases hob : (o == "buy" || o == "sell") = true
        · have hd : o = "buy" ∨ o = "sell" := by simpa using hob
          simp [hob, hd, Bool.not_eq_true', beq_eq_false_iff_ne]
        · rw [Bool.not_eq_true] at hob
          have hd : ¬(o = "buy" ∨ o = "sell") := by simpa using hob
          simp [hob, hd]

/-- Witness for C1's amended theorem at a concrete valid transaction. -/
theorem add_transaction_spec_witness :
    bcG.chain.getLast? = some gB
    ∧ add_transaction bcG txGood
        = ({ bcG with current_transactions := [txGood] }, some 1) :=
  ⟨rfl, (add_transaction_spec bcG txGood gB rfl).1⟩

/-- Counterexample to claim C2: a successful `create_block` call with a
truthy supplied `previous_hash` leaves `chain[-1].previous_hash` different
from the digest of `chain[-2]`. -/
theorem create_block_link_cex :
    create_block H0 bcG 7 (some "bogus") "t1" = (bcC2, Except.ok bC2)
    ∧ bcC2.chain = [gB, bC2]
    ∧ bC2.previous_hash ≠ hashBlock H0 gB := by
  refine ⟨rfl, rfl, by decide⟩

/-- Claim C2 (amended): every successful `create_block` appends exactly one
block whose index is the pre-call chain length, whose data is the pre-call
pool, whose hash is the digest of the block minus its hash field, and whose
previous_hash is the supplied argument when truthy and otherwise the
computed digest of the last pre-call block; afterwards the pool is empty. -/
theorem create_block_spec (H : String → String) (bc : Blockchain)
    (proof : Nat) (ph : Option String) (ts : String) (bc' : Blockchain)
    (b : Block) (h : create_block H bc proof ph ts = (bc', Except.ok b)) :
    bc'.chain = bc.chain ++ [b]
    ∧ b.index = bc.chain.length
    ∧ b.data = BlockData.txs bc.current_transactions
    ∧ b.hash = hashBlock H b
    ∧ b.previous_hash = pyOr ph (calculated_previous_hash H bc.chain)
    ∧ bc'.current_transactions = []
    ∧ bc'.store = save_block_to_json bc.store b := by
  obtain ⟨hv, hb, hbc⟩ := create_block_ok H bc proof ph ts bc' b h
  subst hb
  subst hbc
  exact ⟨rfl, rfl, rfl, rfl, rfl, rfl, rfl⟩

/-- Witness for C2's amended theorem at a concrete default-link call. -/
theorem create_block_spec_witness :
    create_block H0 bcG 7 none "t1" = (bcW2, Except.ok bW2)
    ∧ bcW2.chain = bcG.chain ++ [bW2] :=
  ⟨rfl, (create_block_spec H0 bcG 7 none "t1" bcW2 bW2 rfl).1⟩

/-- Claim C9: a falsy `previous_hash` argument (omitted or the empty string)
is replaced by the computed default digest of the last block; only a truthy
argument overrides it. -/
theorem create_block_falsy_previous_hash (H : String → String)
    (bc : Blockchain) (proof : Nat) (ph : Option String) (ts : String)
    (bc' : Blockchain) (b : Block)
    (h : create_block H bc proof ph ts = (bc', Except.ok b)) :
    ((ph = none ∨ ph = some "") →
        b.previous_hash = calculated_previous_hash H bc.chain)
    ∧ (∀ lb, bc.chain.getLast? = some lb → (ph = none ∨ ph = some "") →
        b.previous_hash = hashBlock H lb)
    ∧ (∀ s, ph = some s → s ≠ "" → b.previous_hash = s) := by
  obtain ⟨hv, hb, hbc⟩ := create_block_ok H bc proof ph ts bc' b h
  subst hb
  refine ⟨?_, ?_, ?_⟩
  · rintro (rfl | rfl)
    · rfl
    · rfl
  · intro lb hlb hph
    have hcalc : calculated_previous_hash H bc.chain = hashBlock H lb := by
      simp [calculated_previous_hash, hlb]
    rcases hph with rfl | rfl
    · simpa [mkNewBlock, pyOr] using hcalc
    · simpa [mkNewBlock, pyOr] using hcalc
  · rintro s rfl hs
    simp [mkNewBlock, pyOr, hs]

/-- Witness for C9 at a concrete empty-string argument. -/
theorem create_block_falsy_previous_hash_witness :
    create_block H0 bcG 7 (some "") "t1" = (bcW2, Except.ok bW2)
    ∧ bW2.previous_hash = hashBlock H0 gB :=
  ⟨rfl,
   (create_block_falsy_previous_hash H0 bcG 7 (some "") "t1" bcW2 bW2
      rfl).2.1 gB rfl (Or.inr rfl)⟩

/-- Counterexample to claim C7: `is_valid_chain` never inspects the data of
block 0, so a single-block chain whose genesis-position data holds an
invalid transaction still validates. -/
theorem is_valid_chain_genesis_data_cex :
    is_valid_chain [blkC7] = true
    ∧ blkC7.data = BlockData.txs [txBad]
    ∧ is_valid_transaction txBad = false ∧ dataTxnsValid blkC7.data = false := by
  refine ⟨by decide, by decide, by decide, by decide⟩

/-- Claim C7 (amended): `is_valid_chain` returns true iff for every i ≥ 1
`chain[i].previous_hash` equals the stored hash field of `chain[i-1]` and
the data of `chain[i]` — block 0's data is never checked — passes the
per-transaction validation loop. -/
theorem is_valid_chain_iff (chain : List Block) :
    is_valid_chain chain = true ↔
      ∀ i b p, chain[i + 1]? = some b → chain[i]? = some p →
        b.previous_hash = p.hash ∧ dataTxnsValid b.data = true := by
  induction chain with
  | nil =>
    constructor
    · intro _ i b p h1 h2
      rw [List.getElem?_nil] at h1
      exact absurd h1 (by simp)
    · intro _
      rfl
  | cons a rest ih =>
    cases rest with
    | nil =>
      constructor
      · intro _ i b p h1 h2
        rw [List.getElem?_cons_succ, List.getElem?_nil] at h1
        exact absurd h1 (by simp)
      · intro _
        rfl
    | cons b rest' =>
      rw [is_valid_chain]
      rw [Bool.and_eq_true, Bool.and_eq_true]
      constructor
      · rintro ⟨⟨hph, hdata⟩, hrest⟩ i bb p h1 h2
        cases i with
        | zero =>
          rw [List.getElem?_cons_succ, List.getElem?_cons_zero] at h1
          rw [List.getElem?_cons_zero] at h2
          obtain rfl := Option.some.inj h1
          obtain rfl := Option.some.inj h2
          exact ⟨beq_iff_eq.mp hph, hdata⟩
        | succ j =>
          rw [List.getElem?_cons_succ] at h1 h2
          exact (ih.mp hrest) j bb p h1 h2
      · intro h
        have h0 := h 0 b a (by simp) (by simp)
        refine ⟨⟨beq_iff_eq.mpr h0.1, h0.2⟩, ih.mpr ?_⟩
        intro i bb p h1 h2
        exact h (i + 1) bb p (by rwa [List.getElem?_cons_succ])
          (by rwa [List.getElem?_cons_succ])

/-- The chain component of `repairWalk` does not depend on the store. -/
theorem repairWalk_fst (H : String → String) :
    ∀ (l : List Block) (prev : Block) (store : List (Nat × Block)),
      (repairWalk H prev store l).1 = repairTail H prev l := by
  intro l
  induction l with
  | nil => intro prev store; rfl
  | cons b rest ih =>
    intro prev store
    simp only [repairWalk, repairTail, ih]

/-- The repair walk keeps the chain length. -/
theorem repairTail_length (H : String → String) :
    ∀ (l : List Block) (prev : Block),
      (repairTail H prev l).length = l.length := by
  intro l
  induction l with
  | nil => intro prev; rfl
  | cons b rest ih =>
    intro prev
    simp only [repairTail, List.length_cons, ih]

/-- One repair step is idempotent for a fixed predecessor. -/
theorem repairStep_idem (H : String → String) (prev b : Block) :
    repairStep H prev (repairStep H prev b) = repairStep H prev b := by
  unfold repairStep
  by_cases hb : (b.previous_hash == hashBlock H prev) = true
  · simp [hb]
  · simp [hb]

/-- The repair walk is idempotent. -/
theorem repairTail_idem (H : String → String) :
    ∀ (l : List Block) (prev : Block),
      repairTail H prev (repairTail H prev l) = repairTail H prev l := by
  intro l
  induction l with
  | nil => intro prev; rfl
  | cons b rest ih =>
    intro prev
    simp only [repairTail, repairStep_idem]
    exact congrArg _ (ih (repairStep H prev b))

/-- Indexwise characterization of the repair walk: each output block is the
repair step applied to the original block and the already-walked
predecessor. -/
theorem repairTail_getElem (H : String → String) :
    ∀ (l : List Block) (prev : Block) (i : Nat) (b p : Block),
      l[i]? = some b → (prev :: repairTail H prev l)[i]? = some p →
      (repairTail H prev l)[i]? = some (repairStep H p b) := by
  intro l
  induction l with
  | nil =>
    intro prev i b p h1 h2
    rw [List.getElem?_nil] at h1
    exact absurd h1 (by simp)
  | cons x rest ih =>
    intro prev i b p h1 h2
    cases i with
    | zero =>
      rw [List.getElem?_cons_zero] at h1 h2
      obtain rfl := Option.some.inj h1
      obtain rfl := Option.some.inj h2
      simp [repairTail]
    | succ j =>
      rw [List.getElem?_cons_succ] at h1 h2
      simp only [repairTail] at h2 ⊢
      rw [List.getElem?_cons_succ]
      exact ih (repairStep H prev x) j b p h1 h2

/-- Closed form of `verify_integrity` on a state with a non-empty chain. -/
theorem verify_integrity_eq (H : String → String) (bc : Blockchain)
    (c0 : Block) (rest : List Block) (hc : bc.chain = c0 :: rest) :
    verify_integrity H bc
      = some (true,
          { bc with
            chain := c0 :: repairTail H c0 rest,
            store := (repairWalk H c0 bc.store rest).2 }) := by
  unfold verify_integrity
  rw [hc]
  simp [repairWalk_fst]

/-- Claim C5: `verify_integrity` returns true on every (non-crashing) call;
walking from index 1 forward it replaces each block by the repair step
against the already-repaired predecessor — the identity exactly when the
recomputed link matches, otherwise the overwrite of `previous_hash` and the
recomputation of `hash` — and an immediate second call leaves the chain
unchanged. -/
theorem verify_integrity_spec (H : String → String) (bc : Blockchain)
    (res : Bool) (bc' : Blockchain)
    (h : verify_integrity H bc = some (res, bc')) :
    res = true
    ∧ bc'.chain.length = bc.chain.length
    ∧ bc'.chain.head? = bc.chain.head?
    ∧ (∀ i b p, bc.chain[i + 1]? = some b → bc'.chain[i]? = some p →
        bc'.chain[i + 1]? = some (repairStep H p b))
    ∧ (∀ res2 bc'', verify_integrity H bc' = some (res2, bc'') →
        bc''.chain = bc'.chain) := by
  cases hc : bc.chain with
  | nil =>
    unfold verify_integrity at h
    rw [hc] at h
    cases h
  | cons c0 rest =>
    rw [verify_integrity_eq H bc c0 rest hc] at h
    injection h with h
    injection h with hres hbc'
    have hchain : bc'.chain = c0 :: repairTail H c0 rest := by
      rw [← hbc']
    refine ⟨hres.symm, ?_, ?_, ?_, ?_⟩
    · rw [hchain, List.length_cons, List.length_cons, repairTail_length]
    · rw [hchain]
      rfl
    · intro i b p h1 h2
      rw [List.getElem?_cons_succ] at h1
      rw [hchain] at h2 ⊢
      rw [List.getElem?_cons_succ]
      exact repairTail_getElem H rest c0 i b p h1 h2
    · intro res2 bc'' h3
      rw [verify_integrity_eq H bc' c0 (repairTail H c0 rest) hchain] at h3
      injection h3 with h3
      injection h3 with hres2 hbc''
      rw [← hbc'']
      show c0 :: repairTail H c0 (repairTail H c0 rest) = bc'.chain
      rw [repairTail_idem, ← hchain]

/-- Witness for C5 at a concrete chain with one broken link. -/
theorem verify_integrity_spec_witness :
    verify_integrity H0 bcBad = some (true, bcRep)
    ∧ bcRep.chain.length = bcBad.chain.length :=
  ⟨rfl, (verify_integrity_spec H0 bcBad true bcRep rfl).2.1⟩

/-- The fueled proof-of-work search starting at `start` returns the first
valid proof: no candidate between `start` and the result is valid. -/
theorem proof_of_work_from_spec (H : String → String) (last : Nat) :
    ∀ (fuel start p : Nat),
      proof_of_work_from H last fuel start = some p →
      valid_proof H last p = true
      ∧ ∀ q, start ≤ q → q < p → valid_proof H last q = false := by
  intro fuel
  induction fuel with
  | zero =>
    intro start p h
    exact absurd h (by simp [proof_of_work_from])
  | succ n ih =>
    intro start p h
    rw [proof_of_work_from] at h
    by_cases hv : valid_proof H last start = true
    · rw [if_pos hv] at h
      obtain rfl := Option.some.inj h
      exact ⟨hv, fun q hq1 hq2 => absurd (lt_of_le_of_lt hq1 hq2)
        (lt_irrefl _)⟩
    · rw [if_neg hv] at h
      obtain ⟨h1, h2⟩ := ih (start + 1) p h
      refine ⟨h1, fun q hq1 hq2 => ?_⟩
      rcases eq_or_lt_of_le hq1 with rfl | hlt
      · exact Bool.eq_false_iff.mpr hv
      · exact h2 q hlt hq2

/-- Claim C6: `valid_proof` holds iff the digest of the concatenated decimal
strings starts with four zero characters, and whenever the fueled
`proof_of_work` search returns a proof, that proof is valid and no smaller
non-negative integer is. -/
theorem proof_of_work_minimal (H : String → String) (last fuel p : Nat)
    (h : proof_of_work H last fuel = some p) :
    (∀ n guess, valid_proof H n guess = true ↔
        (H (Nat.repr n ++ Nat.repr guess)).take 4 = "0000")
    ∧ valid_proof H last p = true
    ∧ ∀ q, q < p → valid_proof H last q = false := by
  obtain ⟨h1, h2⟩ := proof_of_work_from_spec H last fuel 0 p h
  exact ⟨fun n guess => by simp [valid_proof], h1,
    fun q hq => h2 q (Nat.zero_le q) hq⟩

/-- Witness for C6 under a digest function whose outputs start with 0000. -/
theorem proof_of_work_minimal_witness :
    proof_of_work H4 5 1 = some 0 ∧ valid_proof H4 5 0 = true :=
  ⟨rfl, (proof_of_work_minimal H4 5 1 0 rfl).2.1⟩

/-- Claim C10: on any engine state with a non-empty chain (every reachable
server state starts from the genesis block), the `verify` handler always
sends exactly the success response: the branch that would leave `response`
unbound is unreachable because `verify_integrity` always returns true. -/
theorem handle_verify_sends_success (H : String → String) (bc : Blockchain)
    (h : bc.chain ≠ []) :
    (handle_verify_integrity H bc).map Prod.fst
      = some "The blockchain is valid and has not been altered." := by
  cases hc : bc.chain with
  | nil => exact absurd hc h
  | cons c0 rest =>
    rw [handle_verify_integrity, verify_integrity_eq H bc c0 rest hc]
    rfl

/-- Witness for C10 at the fresh single-genesis state. -/
theorem handle_verify_sends_success_witness :
    bcG.chain ≠ []
    ∧ (handle_verify_integrity H0 bcG).map Prod.fst
        = some "The blockchain is valid and has not been altered." :=
  ⟨by decide, handle_verify_sends_success H0 bcG (by decide)⟩

end StockChain
